import Mathlib

/-!
Verification of the King Street pilot dashboard core (src/app.py).

The file shallowly embeds the pure parts of the program: the fixed
configuration constants, the cell/row styling rules, the click-counter
reducer and selection derivation, the JSON (de)serialisation of the click
state, and the dataframe filtering/pivoting pipeline (pandas operations are
modelled as explicit list computations over rational travel times).
-/

set_option maxHeartbeats 1000000

/-! ## Definitions -/

/-- The canonical ordered list of monitored streets (`STREETS` in app.py). -/
def STREETS : List String := ["Dundas", "Queen", "Adelaide", "Richmond", "Wellington", "Front"]

/-- Direction short codes with their long labels (`DIRECTIONS` in app.py),
modelled as an association list since only key lookup is used. -/
def DIRECTIONS : List (String × String) := [("EB", "Eastbound"), ("WB", "Westbound")]

/-- Styling threshold (`THRESHOLD = 1` in app.py). -/
def THRESHOLD : ℚ := 1

/-- `generate_row_class` from app.py: class of a table row. -/
def generate_row_class (clicked : Bool) : String :=
  if clicked then "selected" else "notselected"

/-- `after_cell_class` from app.py: class of an "after" cell given the
baseline value and the current value. -/
def after_cell_class (before after : ℚ) : String :=
  if after - before > THRESHOLD then "worse"
  else if after - before < -THRESHOLD then "better"
  else "same"

/-- The per-street record stored in the click state: a click counter and a
selected flag (the `dict(n_clicks=..., clicked=...)` values in app.py). -/
structure ClickObj where
  n_clicks : Int
  clicked : Bool
deriving DecidableEq

/-- The selection state: an ordered mapping street -> ClickObj
(the `OrderedDict` in app.py), modelled as an association list. -/
abbrev ClickState := List (String × ClickObj)

/-- `INITIAL_STATE` from app.py: Dundas starts with one click and selected,
every other street with zero clicks and unselected. -/
def INITIAL_STATE : ClickState :=
  STREETS.map (fun street =>
    (street, { n_clicks := if street == "Dundas" then 1 else 0,
               clicked := street == "Dundas" }))

/-- JSON values, the data-level model of the strings produced by
`json.dumps` and consumed by `json.loads(..., object_pairs_hook=OrderedDict)`;
objects keep their field order, as the OrderedDict hook does. -/
inductive JsonVal where
  | num (n : Int)
  | bool (b : Bool)
  | str (s : String)
  | arr (elems : List JsonVal)
  | obj (fields : List (String × JsonVal))

/-- One street entry of the click state as serialised by `json.dumps`. -/
def serialiseEntry (p : String × ClickObj) : String × JsonVal :=
  (p.1, .obj [("n_clicks", .num p.2.n_clicks), ("clicked", .bool p.2.clicked)])

/-- `serialise_clicks` from app.py, at the JSON-value level. -/
def serialise_clicks (clicks_dict : ClickState) : JsonVal :=
  .obj (clicks_dict.map serialiseEntry)

/-- Reading back one street entry from JSON; fails on any other shape. -/
def deserialiseEntry : String × JsonVal → Option (String × ClickObj)
  | (k, .obj [("n_clicks", .num n), ("clicked", .bool b)]) =>
      some (k, { n_clicks := n, clicked := b })
  | _ => none

/-- Reading back the fields of the serialised object one by one, in order
(the `object_pairs_hook=OrderedDict` hook keeps the pair order). -/
def deserialiseFields : List (String × JsonVal) → Option ClickState
  | [] => some []
  | f :: fs => (deserialiseEntry f).bind fun e => (deserialiseFields fs).map (e :: ·)

/-- `deserialise_clicks` from app.py, at the JSON-value level: an object is
read back field by field in order, anything else fails. -/
def deserialise_clicks : JsonVal → Option ClickState
  | .obj fields => deserialiseFields fields
  | _ => none

/-- `button_click` from app.py: walk the state values and the reported
per-street counters in parallel (Python `zip` stops at the shorter list);
a strictly larger reported counter selects the street and stores the new
counter, otherwise the street is deselected and its counter kept. -/
def button_click : List Int → ClickState → ClickState
  | _, [] => []
  | [], p :: s => p :: s
  | r :: rs, (k, o) :: s =>
      (k, if o.n_clicks < r then { n_clicks := r, clicked := true }
          else { n_clicks := o.n_clicks, clicked := false }) :: button_click rs s

/-- `update_selected_street` from app.py: the streets currently flagged
clicked, in state order; when none is flagged, the singleton list holding
the first canonical street. -/
def update_selected_street (state_data : ClickState) : List String :=
  let clicked := (state_data.filter (fun p => p.2.clicked)).map Prod.fst
  if clicked.isEmpty then [STREETS.headI] else clicked

/-- `update_clicked_row` (the inner function of `create_row_click_function`
in app.py): a row is styled from the first element of the selected-street
children, or as unselected when that list is empty. -/
def update_clicked_row (streetname : String) (street : List String) : String :=
  match street with
  | [] => generate_row_class false
  | s0 :: _ => generate_row_class (streetname == s0)

/-- The single selected entity as consumed by every downstream callback
(`street[0]` in app.py): the first element of the selected-street list. -/
def SelectedEntity (state_data : ClickState) : String :=
  (update_selected_street state_data).headI

/-- One dataset row: a travel-time measurement keyed by street, direction,
period, day type and date (dates are modelled as naturals, order-isomorphic
to the date strings of the CSV). -/
structure Measurement where
  street : String
  direction : String
  period : String
  day_type : String
  date : Nat
  tt : ℚ
deriving DecidableEq

/-- The row predicate of `filter_graph_data` in app.py: the conjunction of
the four key filters. -/
def rowMatches (street direction day_type period : String) (m : Measurement) : Bool :=
  m.street == street && m.period == period && m.day_type == day_type &&
    m.direction == direction

/-- `filter_graph_data` from app.py: boolean-mask filtering of the current
and baseline datasets (the dataframes become explicit parameters). -/
def filter_graph_data (data baseline : List Measurement)
    (street direction day_type period : String) :
    List Measurement × List Measurement :=
  (data.filter (rowMatches street direction day_type period),
   baseline.filter (rowMatches street direction day_type period))

/-- The figure produced by `generate_graph`: the direction label used as
title and the x/y series of the bar trace. -/
structure Figure where
  title : String
  xs : List Nat
  ys : List ℚ
deriving DecidableEq

/-- `generate_graph` from app.py: the bar trace is built from the filtered
current data; the title lookup `DIRECTIONS[direction]` raises for an unknown
direction, modelled by returning `none`. -/
def generate_graph (data baseline : List Measurement)
    (street direction day_type period : String) : Option Figure :=
  match DIRECTIONS.lookup direction with
  | none => none
  | some label =>
      some { title := label,
             xs := (filter_graph_data data baseline street direction day_type period).1.map
                     Measurement.date,
             ys := (filter_graph_data data baseline street direction day_type period).1.map
                     Measurement.tt }

/-- Concrete measurements used in counterexamples and witnesses. -/
def mLate : Measurement :=
  { street := "Dundas", direction := "EB", period := "AMPK", day_type := "Weekday",
    date := 2, tt := 5 }

def mEarly : Measurement :=
  { street := "Dundas", direction := "EB", period := "AMPK", day_type := "Weekday",
    date := 1, tt := 6 }

def mBloor : Measurement :=
  { street := "Bloor", direction := "EB", period := "AMPK", day_type := "Weekday",
    date := 1, tt := 5 }

/-- Arithmetic mean of a list of rationals. -/
def meanQ (l : List ℚ) : ℚ := l.sum / (l.length : ℚ)

/-- Round-half-to-even to an integer, the rounding numpy applies. -/
def roundHalfEven (q : ℚ) : Int :=
  if q - (q.floor : ℚ) < 1 / 2 then q.floor
  else if (1 : ℚ) / 2 < q - (q.floor : ℚ) then q.floor + 1
  else if q.floor % 2 == 0 then q.floor else q.floor + 1

/-- Rounding to one decimal place (`.round(1)` in app.py). -/
def round1 (q : ℚ) : ℚ := (roundHalfEven (q * 10) : ℚ) / 10

/-- Code-point lexicographic comparison of character lists, the order Python
uses on strings. -/
def strLtB : List Char → List Char → Bool
  | [], [] => false
  | [], _ :: _ => true
  | _ :: _, [] => false
  | a :: as, b :: bs =>
      if a.val < b.val then true else if b.val < a.val then false else strLtB as bs

def strLe (a b : String) : Bool := a == b || strLtB a.data b.data

def pairLe (p q : String × String) : Bool :=
  if p.1 == q.1 then strLe p.2 q.2 else strLtB p.1.data q.1.data

/-- Insertion of one element into a sorted list. -/
def insortBy {α : Type} (le : α → α → Bool) (a : α) : List α → List α
  | [] => [a]
  | b :: l => if le a b then a :: b :: l else b :: insortBy le a l

/-- Insertion sort; models the sorted orders pandas `groupby` and
`pivot_table` put on their keys. -/
def isortBy {α : Type} (le : α → α → Bool) : List α → List α
  | [] => []
  | a :: l => insortBy le a (isortBy le l)

/-- The row predicate of `filter_table_data` in app.py: period and day-type
filters on a dataset. -/
def tableFilter (period day_type : String) (m : Measurement) : Bool :=
  m.period == period && m.day_type == day_type

/-- The (street, direction, travel-time) projection of a measurement — the
columns `pivot_table` consumes. -/
def tripleOf (m : Measurement) : String × String × ℚ := (m.street, m.direction, m.tt)

/-- The (street, direction) grouping key of a measurement. -/
def pairOf (m : Measurement) : String × String := (m.street, m.direction)

/-- Mean travel time of the measurements carrying a grouping key. -/
def mval (f : List Measurement) (p : String × String) : ℚ :=
  meanQ ((f.filter (fun m => m.street == p.1 && m.direction == p.2)).map Measurement.tt)

/-- The distinct grouping keys in groupby order (sorted). -/
def sortedPairs (f : List Measurement) : List (String × String) :=
  isortBy pairLe ((f.map pairOf).dedup)

/-- The `groupby(['street', 'direction'], as_index=False).mean()` step of
`filter_table_data`: one row per distinct (street, direction) key holding
the mean travel time. -/
def groupby_mean (f : List Measurement) : List (String × String × ℚ) :=
  (sortedPairs f).map (fun p => (p.1, p.2, mval f p))

/-- A pivoted table row: the street label (null once the street has been
recast to a category it does not belong to) and the two direction columns
(null when no measurement feeds the cell). -/
structure PivotRow where
  street : Option String
  EB : Option ℚ
  WB : Option ℚ
deriving DecidableEq

/-- `set_categories(STREETS)`: a street outside the canonical set becomes
null. -/
def categoriseStreet (s : String) : Option String :=
  if s ∈ STREETS then some s else none

/-- One direction cell of the pivot: the mean of the travel times carrying
the (street, direction) key, null when there are none. -/
def dirCell (rows : List (String × String × ℚ)) (s d : String) : Option ℚ :=
  let ts := (rows.filter (fun r => r.1 == s && r.2.1 == d)).map (fun r => r.2.2)
  if ts.isEmpty then none else some (meanQ ts)

/-- The pivoted row of one street. -/
def mkPivotRow (rows : List (String × String × ℚ)) (s : String) : PivotRow :=
  { street := categoriseStreet s, EB := dirCell rows s "EB", WB := dirCell rows s "WB" }

/-- The distinct streets in pivot-index order (sorted). -/
def sortedStreets (rows : List (String × String × ℚ)) : List String :=
  isortBy strLe ((rows.map (fun r => r.1)).dedup)

/-- The `pivot_table(index='street', columns='direction', values='tt')` step:
one row per distinct street. -/
def pivotRows (rows : List (String × String × ℚ)) : List PivotRow :=
  (sortedStreets rows).map (mkPivotRow rows)

/-- `.round(1)` applied to one row: the numeric columns are rounded. -/
def roundRow (r : PivotRow) : PivotRow :=
  { street := r.street, EB := r.EB.map round1, WB := r.WB.map round1 }

/-- `pivot_order` from app.py: pivot, recast the street column as a category
over STREETS (streets outside the set become null), sort by the category
order — canonical streets in canonical order first, null-street rows last —
then round every cell to one decimal place. -/
def pivot_order (rows : List (String × String × ℚ)) : List PivotRow :=
  ((STREETS.filterMap (fun st => (pivotRows rows).find? (fun r => r.street == some st))) ++
    (pivotRows rows).filter (fun r => r.street == none)).map roundRow

/-- `filter_table_data` from app.py: the current dataset is filtered,
grouped with means and pivoted; the baseline dataset is filtered and pivoted
directly (`pivot_table` then takes the means itself). -/
def filter_table_data (data baseline : List Measurement) (period day_type : String) :
    List PivotRow × List PivotRow :=
  (pivot_order (groupby_mean (data.filter (tableFilter period day_type))),
   pivot_order ((baseline.filter (tableFilter period day_type)).map tripleOf))

/-- One table cell as the spec describes it: the one-decimal-rounded
arithmetic mean of the travel times grouped under (street, direction). -/
def specCell (f : List Measurement) (st d : String) : Option ℚ :=
  let ts := (f.filter (fun m => m.street == st && m.direction == d)).map Measurement.tt
  if ts.isEmpty then none else some (round1 (meanQ ts))

/-- The table rows as the spec describes them: filter to (period, day_type),
group by (street, direction), take means, pivot directions into columns,
keep only canonical streets in canonical order, round to one decimal. -/
def specTableRows (d : List Measurement) (period day_type : String) : List PivotRow :=
  STREETS.filterMap (fun st =>
    if st ∈ (d.filter (tableFilter period day_type)).map Measurement.street then
      some { street := some st,
             EB := specCell (d.filter (tableFilter period day_type)) st "EB",
             WB := specCell (d.filter (tableFilter period day_type)) st "WB" }
    else none)

/-! ## Helper lemmas -/

lemma initial_keys : INITIAL_STATE.map Prod.fst = STREETS := by decide

lemma button_click_length (rows : List Int) (prev : ClickState) :
    (button_click rows prev).length = prev.length := by
  induction prev generalizing rows with
  | nil => cases rows <;> rfl
  | cons p s ih =>
      cases rows with
      | nil => rfl
      | cons r rs =>
          obtain ⟨k, o⟩ := p
          simp [button_click, ih]

lemma button_click_keys (rows : List Int) (prev : ClickState) :
    (button_click rows prev).map Prod.fst = prev.map Prod.fst := by
  induction prev generalizing rows with
  | nil => cases rows <;> rfl
  | cons p s ih =>
      cases rows with
      | nil => rfl
      | cons r rs =>
          obtain ⟨k, o⟩ := p
          simp [button_click, ih]

lemma button_click_get? (prev : ClickState) (rows : List Int) (i : ℕ)
    (key : String) (obj : ClickObj) (r : Int)
    (hp : prev[i]? = some (key, obj)) (hr : rows[i]? = some r) :
    (button_click rows prev)[i]? =
      some (key, if obj.n_clicks < r then ClickObj.mk r true
                 else ClickObj.mk obj.n_clicks false) := by
  induction prev generalizing rows i with
  | nil => simp at hp
  | cons p s ih =>
      cases rows with
      | nil => simp at hr
      | cons r0 rs =>
          obtain ⟨k, o⟩ := p
          cases i with
          | zero =>
              simp only [List.getElem?_cons_zero, Option.some_inj] at hp hr
              cases hp
              cases hr
              simp [button_click]
          | succ j =>
              simp only [List.getElem?_cons_succ] at hp hr
              simpa [button_click] using ih rs j hp hr

lemma button_click_mono (prev : ClickState) (rows : List Int) (i : ℕ)
    (key : String) (obj : ClickObj)
    (hp : prev[i]? = some (key, obj)) :
    ∃ obj2, (button_click rows prev)[i]? = some (key, obj2) ∧
      obj.n_clicks ≤ obj2.n_clicks := by
  induction prev generalizing rows i with
  | nil => simp at hp
  | cons p s ih =>
      obtain ⟨k, o⟩ := p
      cases rows with
      | nil =>
          exact ⟨obj, by simpa [button_click] using hp, le_rfl⟩
      | cons r0 rs =>
          cases i with
          | zero =>
              simp only [List.getElem?_cons_zero, Option.some_inj] at hp
              cases hp
              by_cases h : obj.n_clicks < r0
              · exact ⟨ClickObj.mk r0 true, by simp [button_click, h], le_of_lt h⟩
              · exact ⟨ClickObj.mk obj.n_clicks false, by simp [button_click, h], le_rfl⟩
          | succ j =>
              simp only [List.getElem?_cons_succ] at hp
              obtain ⟨obj2, h1, h2⟩ := ih rs j hp
              exact ⟨obj2, by simpa [button_click] using h1, h2⟩

lemma update_selected_street_ne_nil (s : ClickState) :
    update_selected_street s ≠ [] := by
  unfold update_selected_street
  by_cases h : ((s.filter (fun p => p.2.clicked)).map Prod.fst).isEmpty
  · simp [h]
  · simp only [h, if_neg]
    simpa [List.isEmpty_iff] using h

lemma update_selected_street_head (s : ClickState) :
    (update_selected_street s).head? =
      some (((s.find? (fun p => p.2.clicked)).map Prod.fst).getD "Dundas") := by
  induction s with
  | nil => rfl
  | cons p s ih =>
      by_cases hc : p.2.clicked
      · simp [update_selected_street, List.filter_cons, hc, List.find?_cons, List.isEmpty_iff]
      · have hfilter : (p :: s).filter (fun q => q.2.clicked) =
            s.filter (fun q => q.2.clicked) := by
          simp [List.filter_cons, hc]
        have hstep : update_selected_street (p :: s) = update_selected_street s := by
          unfold update_selected_street
          rw [hfilter]
        rw [hstep, ih]
        have hfind : (p :: s).find? (fun q => q.2.clicked) =
            s.find? (fun q => q.2.clicked) := by
          simp [List.find?_cons, hc]
        rw [hfind]

lemma update_selected_street_head_cases (s : ClickState) (s0 : String)
    (rest : List String) (h : update_selected_street s = s0 :: rest) :
    s0 = "Dundas" ∨ s0 ∈ s.map Prod.fst := by
  unfold update_selected_street at h
  by_cases he : ((s.filter (fun p => p.2.clicked)).map Prod.fst).isEmpty
  · rw [if_pos he] at h
    injection h with h1 h2
    left
    rw [← h1]
    decide
  · rw [if_neg he] at h
    right
    have hmem : s0 ∈ (s.filter (fun p => p.2.clicked)).map Prod.fst := by
      rw [h]; exact List.mem_cons_self _ _
    obtain ⟨q, hq, hq2⟩ := List.mem_map.mp hmem
    exact List.mem_map.mpr ⟨q, List.mem_of_mem_filter hq, hq2⟩

lemma filter_beq_nil_of_not_mem {α : Type} [BEq α] [LawfulBEq α]
    {L : List α} {a : α} (h : a ∉ L) :
    L.filter (fun x => x == a) = [] := by
  induction L with
  | nil => rfl
  | cons b L ih =>
      have hba : (b == a) = false := by
        simp only [List.mem_cons, not_or] at h
        simpa [beq_iff_eq] using fun hba => h.1 hba.symm
      simp only [List.filter_cons, hba, Bool.false_eq_true, if_neg, not_false_iff]
      exact ih (fun hm => h (List.mem_cons_of_mem _ hm))

lemma filter_beq_of_nodup {α : Type} [BEq α] [LawfulBEq α]
    {L : List α} (hN : L.Nodup) (a : α) :
    L.filter (fun x => x == a) = if a ∈ L then [a] else [] := by
  by_cases ha : a ∈ L
  · rw [if_pos ha]
    induction L with
    | nil => simp at ha
    | cons b L ih =>
        rcases List.mem_cons.mp ha with hba | hmem
        · have hnot : a ∉ L := by rw [hba]; exact (List.nodup_cons.mp hN).1
          rw [← hba]
          simp [List.filter_cons, filter_beq_nil_of_not_mem hnot]
        · have hba : (b == a) = false := by
            have : b ≠ a := by
              rintro rfl
              exact (List.nodup_cons.mp hN).1 hmem
            simpa [beq_iff_eq] using this
          simp only [List.filter_cons, hba, Bool.false_eq_true, if_neg, not_false_iff]
          exact ih (List.nodup_cons.mp hN).2 hmem
  · rw [if_neg ha]
    exact filter_beq_nil_of_not_mem ha

lemma filter_beq_length_of_nodup {α : Type} [BEq α] [LawfulBEq α]
    {L : List α} (hN : L.Nodup) {a : α}
    (ha : a ∈ L) : (L.filter (fun x => x == a)).length = 1 := by
  rw [filter_beq_of_nodup hN a, if_pos ha]
  rfl

lemma find?_beq {α : Type} [BEq α] [LawfulBEq α] (L : List α) (a : α) :
    L.find? (fun x => x == a) = if a ∈ L then some a else none := by
  induction L with
  | nil => simp
  | cons b L ih =>
      cases h : (b == a) with
      | true =>
          have hba : b = a := by simpa using h
          subst hba
          simp [List.find?_cons, h]
      | false =>
          have hne : ¬a = b := fun hh => by simp [hh] at h
          have hcons : (b :: L).find? (fun x => x == a) = L.find? (fun x => x == a) := by
            simp [List.find?_cons, h]
          rw [hcons, ih]
          by_cases hm : a ∈ L
          · simp [List.mem_cons, hm]
          · simp [List.mem_cons, hm, hne]

lemma foldl_button_click_keys (reports : List (List Int)) (s : ClickState) :
    (reports.foldl (fun t r => button_click r t) s).map Prod.fst = s.map Prod.fst := by
  induction reports generalizing s with
  | nil => rfl
  | cons r rs ih => rw [List.foldl_cons, ih, button_click_keys]

lemma row_class_pred (s0 : String) (rest : List String) (nm : String) :
    (update_clicked_row nm (s0 :: rest) == "selected") = (nm == s0) := by
  cases h : nm == s0 <;> simp [update_clicked_row, generate_row_class, h]

lemma insortBy_perm {α : Type} (le : α → α → Bool) (a : α) (l : List α) :
    (insortBy le a l).Perm (a :: l) := by
  induction l with
  | nil => exact List.Perm.refl _
  | cons b l ih =>
      by_cases h : le a b
      · rw [insortBy, if_pos h]
      · rw [insortBy, if_neg h]
        exact (ih.cons b).trans (List.Perm.swap a b l)

lemma isortBy_perm {α : Type} (le : α → α → Bool) (l : List α) :
    (isortBy le l).Perm l := by
  induction l with
  | nil => exact List.Perm.refl _
  | cons a l ih => exact (insortBy_perm le a (isortBy le l)).trans (ih.cons a)

lemma mem_isortBy {α : Type} (le : α → α → Bool) {a : α} {l : List α} :
    a ∈ isortBy le l ↔ a ∈ l :=
  (isortBy_perm le l).mem_iff

lemma nodup_isortBy {α : Type} (le : α → α → Bool) {l : List α} (h : l.Nodup) :
    (isortBy le l).Nodup :=
  ((isortBy_perm le l).nodup_iff).mpr h

lemma meanQ_singleton (x : ℚ) : meanQ [x] = x := by
  simp [meanQ]

lemma find?_pivotRow (g : List (String × String × ℚ)) (st : String)
    (hst : st ∈ STREETS) :
    (pivotRows g).find? (fun r => r.street == some st) =
      if st ∈ g.map (fun r => r.1) then some (mkPivotRow g st) else none := by
  unfold pivotRows
  rw [List.find?_map]
  have hpred : ((fun r : PivotRow => r.street == some st) ∘ mkPivotRow g) =
      (fun s => s == st) := by
    funext s
    show (categoriseStreet s == some st) = (s == st)
    unfold categoriseStreet
    by_cases hs : s ∈ STREETS
    · rw [if_pos hs]
      rfl
    · rw [if_neg hs]
      have hne : s ≠ st := fun hh => hs (hh ▸ hst)
      simp [hne]
  rw [hpred, find?_beq]
  have hmem : (st ∈ sortedStreets g) ↔ (st ∈ g.map (fun r => r.1)) := by
    unfold sortedStreets
    rw [mem_isortBy, List.mem_dedup]
  by_cases hm : st ∈ g.map (fun r => r.1)
  · rw [if_pos (hmem.mpr hm), if_pos hm]
    rfl
  · rw [if_neg (fun hh => hm (hmem.mp hh)), if_neg hm]
    rfl

lemma pivot_order_decomp (g : List (String × String × ℚ)) :
    ∃ rest, pivot_order g =
      (STREETS.filterMap (fun st =>
        if st ∈ g.map (fun r => r.1) then some (roundRow (mkPivotRow g st)) else none)) ++
        rest ∧
      ∀ r ∈ rest, r.street = none := by
  refine ⟨((pivotRows g).filter (fun r => r.street == none)).map roundRow, ?_, ?_⟩
  · unfold pivot_order
    rw [List.map_append, List.map_filterMap]
    congr 1
    apply List.filterMap_congr
    intro st hstm
    rw [find?_pivotRow g st hstm]
    by_cases hm : st ∈ g.map (fun r => r.1) <;> simp [hm]
  · intro r hr
    obtain ⟨r0, hr0, hrr⟩ := List.mem_map.mp hr
    have hb := List.of_mem_filter hr0
    have hnone : r0.street = none := by simpa using hb
    rw [← hrr]
    simp [roundRow, hnone]

lemma dirCell_triples (f : List Measurement) (st d : String) :
    (dirCell (f.map tripleOf) st d).map round1 = specCell f st d := by
  unfold dirCell specCell
  rw [List.filter_map]
  have hcomp : ((fun r : String × String × ℚ => r.1 == st && r.2.1 == d) ∘ tripleOf) =
      (fun m : Measurement => m.street == st && m.direction == d) := by
    funext m
    rfl
  rw [hcomp, List.map_map]
  have hcomp2 : ((fun r : String × String × ℚ => r.2.2) ∘ tripleOf) = Measurement.tt := by
    funext m
    rfl
  rw [hcomp2]
  by_cases he :
      ((f.filter (fun m => m.street == st && m.direction == d)).map Measurement.tt).isEmpty <;>
    simp [he]

lemma pairOf_mem_iff (f : List Measurement) (st d : String) :
    ((st, d) ∈ sortedPairs f) ↔
      ¬((f.filter (fun m => m.street == st && m.direction == d)).map
          Measurement.tt).isEmpty = true := by
  unfold sortedPairs
  rw [mem_isortBy, List.mem_dedup]
  constructor
  · rintro hmem hempty
    obtain ⟨m, hm, hpair⟩ := List.mem_map.mp hmem
    have h1 : m.street = st := congrArg Prod.fst hpair
    have h2 : m.direction = d := congrArg Prod.snd hpair
    have hmf : m ∈ f.filter (fun m => m.street == st && m.direction == d) :=
      List.mem_filter.mpr ⟨hm, by simp [h1, h2]⟩
    have hmm : m.tt ∈ (f.filter (fun m => m.street == st && m.direction == d)).map
        Measurement.tt := List.mem_map_of_mem _ hmf
    rw [List.isEmpty_iff] at hempty
    rw [hempty] at hmm
    simp at hmm
  · intro hne
    have hfil : f.filter (fun m => m.street == st && m.direction == d) ≠ [] := by
      intro h0
      exact hne (by simp [h0])
    obtain ⟨m, hm⟩ := List.exists_mem_of_ne_nil _ hfil
    obtain ⟨hmf, hcond⟩ := List.mem_filter.mp hm
    have h12 : m.street = st ∧ m.direction = d := by simpa using hcond
    exact List.mem_map.mpr ⟨m, hmf, by simp [pairOf, h12.1, h12.2]⟩

lemma groupby_keys_mem (f : List Measurement) (st : String) :
    (st ∈ (groupby_mean f).map (fun r => r.1)) ↔ st ∈ f.map Measurement.street := by
  unfold groupby_mean
  rw [List.map_map]
  have hcomp : ((fun r : String × String × ℚ => r.1) ∘
      (fun p : String × String => (p.1, p.2, mval f p))) =
      (fun p : String × String => p.1) := by
    funext p
    rfl
  rw [hcomp]
  constructor
  · intro h
    obtain ⟨p, hp, hp1⟩ := List.mem_map.mp h
    have hp2 : p ∈ f.map pairOf := by
      rw [← List.mem_dedup]
      exact (mem_isortBy pairLe).mp hp
    obtain ⟨m, hm, hm1⟩ := List.mem_map.mp hp2
    refine List.mem_map.mpr ⟨m, hm, ?_⟩
    rw [← hp1, ← hm1]
    rfl
  · intro h
    obtain ⟨m, hm, hm1⟩ := List.mem_map.mp h
    refine List.mem_map.mpr ⟨pairOf m, ?_, hm1⟩
    unfold sortedPairs
    rw [mem_isortBy, List.mem_dedup]
    exact List.mem_map_of_mem _ hm

lemma dirCell_groupby (f : List Measurement) (st d : String) :
    (dirCell (groupby_mean f) st d).map round1 = specCell f st d := by
  have hnodup : (sortedPairs f).Nodup := nodup_isortBy pairLe (List.nodup_dedup _)
  unfold dirCell groupby_mean
  rw [List.filter_map]
  have hcomp : ((fun r : String × String × ℚ => r.1 == st && r.2.1 == d) ∘
      (fun p : String × String => (p.1, p.2, mval f p))) =
      (fun p : String × String => p == (st, d)) := by
    funext p
    cases p
    rfl
  rw [hcomp]
  have hfb := filter_beq_of_nodup hnodup (st, d)
  rw [show (fun x : String × String => x == (st, d)) = (fun p => p == (st, d)) from rfl] at hfb
  rw [hfb]
  by_cases hmem : (st, d) ∈ sortedPairs f
  · rw [if_pos hmem]
    have hne := (pairOf_mem_iff f st d).mp hmem
    unfold specCell
    rw [if_neg hne]
    simp [mval, meanQ_singleton]
  · rw [if_neg hmem]
    have hempty :
        ((f.filter (fun m => m.street == st && m.direction == d)).map
          Measurement.tt).isEmpty = true := by
      by_contra hc
      exact hmem ((pairOf_mem_iff f st d).mpr hc)
    unfold specCell
    rw [if_pos hempty]
    simp

lemma triples_keys (f : List Measurement) :
    (f.map tripleOf).map (fun r => r.1) = f.map Measurement.street := by
  rw [List.map_map]
  rfl

lemma canonical_current (data : List Measurement) (period day_type : String) :
    STREETS.filterMap (fun st =>
      if st ∈ (groupby_mean (data.filter (tableFilter period day_type))).map (fun r => r.1)
      then some (roundRow (mkPivotRow
        (groupby_mean (data.filter (tableFilter period day_type))) st))
      else none) = specTableRows data period day_type := by
  unfold specTableRows
  apply List.filterMap_congr
  intro st hst
  by_cases hm : st ∈ (data.filter (tableFilter period day_type)).map Measurement.street
  · rw [if_pos ((groupby_keys_mem _ st).mpr hm), if_pos hm]
    unfold roundRow mkPivotRow categoriseStreet
    rw [if_pos hst]
    simp only [dirCell_groupby]
  · rw [if_neg (fun hh => hm ((groupby_keys_mem _ st).mp hh)), if_neg hm]

lemma canonical_baseline (baseline : List Measurement) (period day_type : String) :
    STREETS.filterMap (fun st =>
      if st ∈ ((baseline.filter (tableFilter period day_type)).map tripleOf).map (fun r => r.1)
      then some (roundRow (mkPivotRow
        ((baseline.filter (tableFilter period day_type)).map tripleOf) st))
      else none) = specTableRows baseline period day_type := by
  unfold specTableRows
  apply List.filterMap_congr
  intro st hst
  by_cases hm : st ∈ (baseline.filter (tableFilter period day_type)).map Measurement.street
  · rw [if_pos (by rw [triples_keys]; exact hm), if_pos hm]
    unfold roundRow mkPivotRow categoriseStreet
    rw [if_pos hst]
    simp only [dirCell_triples]
  · rw [if_neg (by rw [triples_keys]; exact hm), if_neg hm]

/-! ## Claim theorems -/

/-- Claim C1: for every previous selection state and every click report with
one counter per entity in the fixed entity order, the reducer keeps the
entity keys and, entity by entity, selects an entity and stores the reported
counter exactly when the reported counter strictly exceeds the stored one,
and otherwise deselects the entity and leaves its stored counter unchanged. -/
theorem C1_button_click_pointwise (prev : ClickState) (rows : List Int)
    (hlen : rows.length = prev.length) :
    (button_click rows prev).length = prev.length ∧
    (button_click rows prev).map Prod.fst = prev.map Prod.fst ∧
    ∀ (i : ℕ) (key : String) (obj : ClickObj) (r : Int),
      prev[i]? = some (key, obj) → rows[i]? = some r →
      (button_click rows prev)[i]? =
        some (key, if obj.n_clicks < r then ClickObj.mk r true
                   else ClickObj.mk obj.n_clicks false) :=
  ⟨button_click_length rows prev, button_click_keys rows prev,
   fun i key obj r hp hr => button_click_get? prev rows i key obj r hp hr⟩

/-- Concrete run of C1: from the initial state, a report raising the first
counter from 1 to 2 selects Dundas and stores the new counter. -/
theorem C1_button_click_pointwise_witness :
    ([2, 1, 0, 0, 0, 0] : List Int).length = INITIAL_STATE.length ∧
    INITIAL_STATE[0]? = some ("Dundas", ClickObj.mk 1 true) ∧
    (button_click [2, 1, 0, 0, 0, 0] INITIAL_STATE)[0]? =
      some ("Dundas", ClickObj.mk 2 true) := by
  refine ⟨by decide, by decide, ?_⟩
  have h := (C1_button_click_pointwise INITIAL_STATE [2, 1, 0, 0, 0, 0]
      (by decide)).2.2 0 "Dundas" (ClickObj.mk 1 true) 2 (by decide) (by decide)
  simpa using h

/-- Claim C9: across any reduction, every entity keeps its key and its
stored click counter never decreases. -/
theorem C9_counters_monotone (prev : ClickState) (rows : List Int) (i : ℕ)
    (key : String) (obj : ClickObj)
    (hp : prev[i]? = some (key, obj)) :
    ∃ obj2, (button_click rows prev)[i]? = some (key, obj2) ∧
      obj.n_clicks ≤ obj2.n_clicks :=
  button_click_mono prev rows i key obj hp

/-- Concrete run of C9: a report that lowers the first counter to 0 leaves
the stored counter at 1, which is not a decrease below its old value. -/
theorem C9_counters_monotone_witness :
    INITIAL_STATE[0]? = some ("Dundas", ClickObj.mk 1 true) ∧
    ∃ obj2, (button_click [0, 0, 0, 0, 0, 0] INITIAL_STATE)[0]? =
        some ("Dundas", obj2) ∧ (ClickObj.mk 1 true).n_clicks ≤ obj2.n_clicks :=
  ⟨by decide,
   C9_counters_monotone INITIAL_STATE [0, 0, 0, 0, 0, 0] 0 "Dundas"
     (ClickObj.mk 1 true) (by decide)⟩

/-- Claim C10: deserialising the serialisation of any state-shaped ordered
mapping returns exactly the original mapping, entries, values and key order
included. -/
theorem C10_serialise_roundtrip (clicks_dict : ClickState) :
    deserialise_clicks (serialise_clicks clicks_dict) = some clicks_dict := by
  induction clicks_dict with
  | nil => rfl
  | cons p s ih =>
      obtain ⟨k, o⟩ := p
      simp only [serialise_clicks, deserialise_clicks, List.map_cons,
        deserialiseFields] at ih ⊢
      simp [serialiseEntry, deserialiseEntry, ih]

/-- Claim C2: the derived selection is never empty; its first element is the
first entity in state order whose flag is set, and the designated default
"Dundas" — the first street of the canonical order — when no flag is set. -/
theorem C2_selected_entity_first_or_default (s : ClickState) :
    update_selected_street s ≠ [] ∧
    (update_selected_street s).head? =
      some (((s.find? (fun p => p.2.clicked)).map Prod.fst).getD "Dundas") ∧
    STREETS.head? = some "Dundas" :=
  ⟨update_selected_street_ne_nil s, update_selected_street_head s, by decide⟩

/-- Claim C3: after any sequence of click reports is folded into the initial
state by the reducer, the derived selection is non-empty and exactly one of
the six canonical rows is assigned the class "selected". -/
theorem C3_single_selection (reports : List (List Int)) :
    update_selected_street (reports.foldl (fun t r => button_click r t) INITIAL_STATE) ≠ [] ∧
    (STREETS.filter (fun nm =>
        update_clicked_row nm
          (update_selected_street
            (reports.foldl (fun t r => button_click r t) INITIAL_STATE)) ==
        "selected")).length = 1 := by
  set final := reports.foldl (fun t r => button_click r t) INITIAL_STATE with hfinal
  have hkeys : final.map Prod.fst = STREETS := by
    rw [hfinal, foldl_button_click_keys, initial_keys]
  refine ⟨update_selected_street_ne_nil final, ?_⟩
  obtain ⟨s0, rest, hsel⟩ :=
    List.exists_cons_of_ne_nil (update_selected_street_ne_nil final)
  have hs0 : s0 ∈ STREETS := by
    rcases update_selected_street_head_cases final s0 rest hsel with h | h
    · rw [h]; decide
    · rwa [hkeys] at h
  rw [hsel]
  have hpred : (fun nm => update_clicked_row nm (s0 :: rest) == "selected") =
      (fun nm => nm == s0) := funext fun nm => row_class_pred s0 rest nm
  rw [hpred]
  exact filter_beq_length_of_nodup (by decide) hs0

/-- Claim C8: the per-entity registration covers exactly the fixed entity
set, and for every entity and every derived selection the row class is
"selected" precisely when the entity equals the derived selected entity and
"notselected" otherwise. -/
theorem C8_row_class_iff :
    INITIAL_STATE.map Prod.fst = STREETS ∧
    ∀ (streetname : String) (s : ClickState),
      (update_clicked_row streetname (update_selected_street s) = "selected" ↔
        streetname = SelectedEntity s) ∧
      (update_clicked_row streetname (update_selected_street s) = "notselected" ↔
        streetname ≠ SelectedEntity s) := by
  refine ⟨by decide, fun streetname s => ?_⟩
  obtain ⟨s0, rest, hsel⟩ :=
    List.exists_cons_of_ne_nil (update_selected_street_ne_nil s)
  have hent : SelectedEntity s = s0 := by
    unfold SelectedEntity
    rw [hsel]
    rfl
  rw [hsel, hent]
  cases h : streetname == s0 with
  | true =>
      have : streetname = s0 := by simpa [beq_iff_eq] using h
      simp [update_clicked_row, generate_row_class, h, this]
  | false =>
      have : streetname ≠ s0 := by simpa [beq_iff_eq] using h
      simp [update_clicked_row, generate_row_class, h, this]

/-- Claim C4: the cell class is "worse" exactly when the current value
exceeds the baseline by more than 1, "better" exactly when it is below the
baseline by more than 1, and "same" otherwise; in particular 10 -> 11 is
"same", 10 -> 11.01 is "worse" and 10 -> 8.99 is "better". -/
theorem C4_cell_class_threshold (before after : ℚ) :
    (after_cell_class before after = "worse" ↔ after - before > 1) ∧
    (after_cell_class before after = "better" ↔ after - before < -1) ∧
    (after_cell_class before after = "same" ↔
      ¬(after - before > 1) ∧ ¬(after - before < -1)) ∧
    after_cell_class 10 11 = "same" ∧
    after_cell_class 10 11.01 = "worse" ∧
    after_cell_class 10 8.99 = "better" := by
  refine ⟨?_, ?_, ?_, by norm_num [after_cell_class, THRESHOLD],
    by norm_num [after_cell_class, THRESHOLD], by norm_num [after_cell_class, THRESHOLD]⟩ <;>
    · unfold after_cell_class THRESHOLD
      split_ifs with h1 h2 <;>
        simp_all <;> first
          | (constructor <;> intro h <;> simp_all <;> linarith)
          | (intro h; linarith)
          | linarith

/-- Counterexample to claim C5: the series query never reorders, so on a
source collection whose matching rows are not date-ascending the returned
series is not date-ascending either. -/
theorem C5_no_date_sort_counterexample :
    (filter_graph_data [mLate, mEarly] [] "Dundas" "EB" "Weekday" "AMPK").1 =
      [mLate, mEarly] ∧
    ¬(filter_graph_data [mLate, mEarly] [] "Dundas" "EB" "Weekday" "AMPK").1.Pairwise
        (fun m1 m2 => m1.date ≤ m2.date) := by
  constructor
  · decide
  · decide

/-- Claim C5 as amended: the series query filters both collections to the
four-way key and returns exactly the matching measurements in their source
order — it keeps every matching row with its multiplicity, drops every
non-matching row, applies no reordering and no aggregation. -/
theorem C5_filter_preserves_order (data baseline : List Measurement)
    (street direction day_type period : String) :
    List.Sublist (filter_graph_data data baseline street direction day_type period).1 data ∧
    List.Sublist (filter_graph_data data baseline street direction day_type period).2 baseline ∧
    (∀ m, m ∈ (filter_graph_data data baseline street direction day_type period).1 ↔
      m ∈ data ∧ rowMatches street direction day_type period m = true) ∧
    (∀ m, m ∈ (filter_graph_data data baseline street direction day_type period).2 ↔
      m ∈ baseline ∧ rowMatches street direction day_type period m = true) ∧
    (∀ m, (filter_graph_data data baseline street direction day_type period).1.count m =
      if rowMatches street direction day_type period m then data.count m else 0) ∧
    (∀ m, (filter_graph_data data baseline street direction day_type period).2.count m =
      if rowMatches street direction day_type period m then baseline.count m else 0) := by
  refine ⟨List.filter_sublist _, List.filter_sublist _,
    fun m => List.mem_filter, fun m => List.mem_filter, fun m => ?_, fun m => ?_⟩ <;>
    · by_cases h : rowMatches street direction day_type period m = true
      · rw [if_pos h]
        exact List.count_filter h
      · rw [if_neg h]
        exact List.count_eq_zero.mpr (fun hmem => h (List.mem_filter.mp hmem).2)

/-- Claim C6: when no measurement in either dataset matches the four-way
key, the series query returns a pair of empty lists and the chart derivation
still produces a figure whose series are empty, for either direction of the
direction domain. -/
theorem C6_empty_series_resilience (data baseline : List Measurement)
    (street direction day_type period : String)
    (hdir : direction = "EB" ∨ direction = "WB")
    (hdata : ∀ m ∈ data, rowMatches street direction day_type period m = false)
    (hbase : ∀ m ∈ baseline, rowMatches street direction day_type period m = false) :
    filter_graph_data data baseline street direction day_type period = ([], []) ∧
    ∃ g, generate_graph data baseline street direction day_type period = some g ∧
      g.xs = [] ∧ g.ys = [] := by
  have h1 : data.filter (rowMatches street direction day_type period) = [] :=
    List.filter_eq_nil_iff.mpr (fun m hm => by simp [hdata m hm])
  have h2 : baseline.filter (rowMatches street direction day_type period) = [] :=
    List.filter_eq_nil_iff.mpr (fun m hm => by simp [hbase m hm])
  have hfg : filter_graph_data data baseline street direction day_type period = ([], []) := by
    simp [filter_graph_data, h1, h2]
  refine ⟨hfg, ?_⟩
  rcases hdir with h | h <;> subst h
  · have hlook : DIRECTIONS.lookup "EB" = some "Eastbound" := by decide
    exact ⟨{ title := "Eastbound", xs := [], ys := [] },
      by simp [generate_graph, hlook, hfg], rfl, rfl⟩
  · have hlook : DIRECTIONS.lookup "WB" = some "Westbound" := by decide
    exact ⟨{ title := "Westbound", xs := [], ys := [] },
      by simp [generate_graph, hlook, hfg], rfl, rfl⟩

/-- Concrete run of C6: no row of a one-row dataset matches street "Front",
and the derived figure has empty series. -/
theorem C6_empty_series_resilience_witness :
    ((("EB" : String) = "EB" ∨ ("EB" : String) = "WB") ∧
      (∀ m ∈ [mLate], rowMatches "Front" "EB" "Weekday" "AMPK" m = false) ∧
      (∀ m ∈ ([] : List Measurement), rowMatches "Front" "EB" "Weekday" "AMPK" m = false)) ∧
    (filter_graph_data [mLate] [] "Front" "EB" "Weekday" "AMPK" = ([], []) ∧
      ∃ g, generate_graph [mLate] [] "Front" "EB" "Weekday" "AMPK" = some g ∧
        g.xs = [] ∧ g.ys = []) :=
  ⟨⟨Or.inl rfl, by decide, by simp⟩,
   C6_empty_series_resilience [mLate] [] "Front" "EB" "Weekday" "AMPK"
     (Or.inl rfl) (by decide) (by simp)⟩

/-- Counterexample to claim C7: a measurement for "Bloor", a street outside
the canonical set, is not dropped by the table pipeline — it survives as a
trailing row whose street label has been nulled by the category recast. -/
theorem C7_noncanonical_not_dropped_counterexample :
    (filter_table_data [mBloor] [] "AMPK" "Weekday").1 =
      [{ street := none, EB := some 5, WB := none }] ∧
    (filter_table_data [mBloor] [] "AMPK" "Weekday").1 ≠ [] := by
  have h1 : [mBloor].filter (tableFilter "AMPK" "Weekday") = [mBloor] := by
    simp [tableFilter, mBloor]
  have h2 : groupby_mean [mBloor] = [("Bloor", "EB", (5 : ℚ))] := by
    simp [groupby_mean, sortedPairs, pairOf, mBloor, isortBy, insortBy, mval,
      meanQ_singleton]
  have h3 : pivotRows [("Bloor", "EB", (5 : ℚ))] =
      [{ street := none, EB := some 5, WB := none }] := by
    simp [pivotRows, sortedStreets, isortBy, insortBy, mkPivotRow, categoriseStreet,
      dirCell, meanQ_singleton, STREETS]
  have hb1 : ∀ st : String, ((none : Option String) == some st) = false := fun st => rfl
  have hb2 : ((none : Option String) == none) = true := rfl
  have h5 : round1 (5 : ℚ) = 5 := by
    unfold round1 roundHalfEven
    have hq : (5 : ℚ) * 10 = 50 := by norm_num
    rw [hq]
    have hfl : (50 : ℚ).floor = ⌊(50 : ℚ)⌋ := rfl
    rw [hfl, Int.floor_ofNat]
    norm_num
  have h4 : pivot_order [("Bloor", "EB", (5 : ℚ))] =
      [{ street := none, EB := some 5, WB := none }] := by
    unfold pivot_order
    rw [h3]
    simp [STREETS, List.find?_cons, hb1, hb2, List.filter_cons, roundRow, h5]
  have hall : (filter_table_data [mBloor] [] "AMPK" "Weekday").1 =
      [{ street := none, EB := some 5, WB := none }] := by
    show pivot_order (groupby_mean ([mBloor].filter (tableFilter "AMPK" "Weekday"))) = _
    rw [h1, h2, h4]
  exact ⟨hall, by rw [hall]; simp⟩

/-- Claim C7 as amended: for each collection the table pipeline filters to
(period, day_type), groups by (street, direction), takes the arithmetic mean
of travel times, pivots directions into columns, rounds to one decimal, and
orders the canonical streets first in canonical order exactly as the spec
table describes — but rows for streets outside the canonical set are not
dropped: they trail the canonical rows with a nulled street label. -/
theorem C7_table_pipeline (data baseline : List Measurement)
    (period day_type : String) :
    (∃ rest, (filter_table_data data baseline period day_type).1 =
        specTableRows data period day_type ++ rest ∧ ∀ r ∈ rest, r.street = none) ∧
    (∃ rest, (filter_table_data data baseline period day_type).2 =
        specTableRows baseline period day_type ++ rest ∧ ∀ r ∈ rest, r.street = none) := by
  constructor
  · obtain ⟨rest, hre, hnone⟩ :=
      pivot_order_decomp (groupby_mean (data.filter (tableFilter period day_type)))
    refine ⟨rest, ?_, hnone⟩
    show pivot_order (groupby_mean (data.filter (tableFilter period day_type))) = _
    rw [hre, canonical_current]
  · obtain ⟨rest, hre, hnone⟩ :=
      pivot_order_decomp ((baseline.filter (tableFilter period day_type)).map tripleOf)
    refine ⟨rest, ?_, hnone⟩
    show pivot_order ((baseline.filter (tableFilter period day_type)).map tripleOf) = _
    rw [hre, canonical_baseline]
